import Mathlib

/-!
Verification development for the Stock-Exchange-V2 indicator and signal
engine.  The Python sources are embedded shallowly over `ℚ` (prices,
volumes and indicator values; pandas/NumPy NaN cells become `Option`
`none` entries, and a standard deviation is taken in `ℝ` via `Real.sqrt`).

Embedded code:
* `modules/indicators.py`   — `TechnicalIndicators` (RSI, MACD, Bollinger,
  OBV, Parabolic SAR);
* `modules/technical_analysis.py` — `FastTechnicalAnalysis`
  (`calculate_all`, `_generate_signals`, `get_summary`);
* `app.py`                  — `AdvancedTechnicalAnalyzer.calculate_rsi`,
  `AdvancedTechnicalAnalyzer.calculate_macd` and the MACD-crossover signal
  rule of the `analyse` route.
-/

set_option maxHeartbeats 1000000

/-- Arithmetic mean of a list, `xs.sum / len(xs)` (pandas `.mean()` on a
window; the `ℚ` convention `x / 0 = 0` is unreachable in the uses below
because windows are nonempty). -/
def listMean (xs : List ℚ) : ℚ := xs.sum / xs.length

/-- pandas `series.rolling(window=p).f()`: position `i` holds `f` of the
trailing window of width `p` ending at `i`, and `none` (NaN) while fewer
than `p` observations exist. -/
def rollingApply (f : List ℚ → ℚ) (p : ℕ) (xs : List ℚ) : List (Option ℚ) :=
  (List.range xs.length).map fun i =>
    if p ≤ i + 1 then some (f ((xs.take (i + 1)).drop (i + 1 - p))) else none

/-- pandas `series.rolling(window=p).mean()`. -/
def rollingMean (p : ℕ) (xs : List ℚ) : List (Option ℚ) :=
  rollingApply listMean p xs

/-- `series.diff()` without its leading NaN: `diffs xs` has length
`len xs - 1` and `diffs xs [i] = xs[i+1] - xs[i]`. -/
def diffs (xs : List ℚ) : List ℚ :=
  List.zipWith (fun a b => a - b) xs.tail xs

/-- Recurrence of `series.ewm(span, adjust=False).mean()` after the seed:
`e = (x - prev) * k + prev` with `k = 2 / (span + 1)`.  This is also
exactly `calculate_ema` in `app.py` (`multiplier = 2 / (period + 1)`,
`ema[i] = (data[i] - ema[i-1]) * multiplier + ema[i-1]`). -/
def ewmaAux (k : ℚ) : ℚ → List ℚ → List ℚ
  | _, [] => []
  | prev, x :: rest =>
    let e := (x - prev) * k + prev
    e :: ewmaAux k e rest

/-- `series.ewm(span=span, adjust=False).mean()`: seeded with the first
observation, then the exponential recurrence. -/
def ewma (span : ℕ) (xs : List ℚ) : List ℚ :=
  match xs with
  | [] => []
  | x :: rest => x :: ewmaAux (2 / (span + 1)) x rest

/-- `delta.where(delta > 0, 0)` on `prices.diff()`: the leading NaN of
`diff` fails the `> 0` test and is replaced by `0`, later entries keep the
positive deltas and replace the rest by `0`
(`modules/indicators.py` line 20). -/
def gains : List ℚ → List ℚ
  | [] => []
  | ps => 0 :: (diffs ps).map fun d => if 0 < d then d else 0

/-- `(-delta.where(delta < 0, 0))` on `prices.diff()`
(`modules/indicators.py` line 21). -/
def losses : List ℚ → List ℚ
  | [] => []
  | ps => 0 :: (diffs ps).map fun d => if d < 0 then -d else 0

/-- Shared body of `TechnicalIndicators.calculate_rsi` (lines 19-28) and
`FastTechnicalAnalysis._calculate_rsi` (lines 46-53): rolling means of
gains and losses, `loss.replace(0, np.nan)` making a zero average loss an
undefined cell, `rsi = 100 - 100 / (1 + gain / loss)`. -/
def pandasRsi (prices : List ℚ) (period : ℕ) : List (Option ℚ) :=
  List.zipWith
    (fun go lo =>
      match go, lo with
      | some g, some l => if l = 0 then none else some (100 - 100 / (1 + g / l))
      | _, _ => none)
    (rollingMean period (gains prices)) (rollingMean period (losses prices))

/-- `TechnicalIndicators.calculate_rsi` (`modules/indicators.py`
lines 14-28): an all-NaN series when the history is shorter than
`period`, otherwise the pandas computation above. -/
def calculate_rsi (prices : List ℚ) (period : ℕ) : List (Option ℚ) :=
  if prices.length < period then List.replicate prices.length none
  else pandasRsi prices period

/-- Result record of `TechnicalIndicators.calculate_macd`. -/
structure MacdResult where
  macd : List (Option ℚ)
  signalLine : List (Option ℚ)
  histogram : List (Option ℚ)

/-- `TechnicalIndicators.calculate_macd` (`modules/indicators.py`
lines 31-52): all-NaN series when `len(prices) < slow`, otherwise
`macd = ewm(fast) - ewm(slow)`, `signal = ewm(macd, sig)`,
`histogram = macd - signal`. -/
def calculate_macd (prices : List ℚ) (fast slow sig : ℕ) : MacdResult :=
  if prices.length < slow then
    { macd := List.replicate prices.length none
      signalLine := List.replicate prices.length none
      histogram := List.replicate prices.length none }
  else
    let macdLine := List.zipWith (fun a b => a - b) (ewma fast prices) (ewma slow prices)
    let signalLine := ewma sig macdLine
    { macd := macdLine.map some
      signalLine := signalLine.map some
      histogram := (List.zipWith (fun a b => a - b) macdLine signalLine).map some }

/-- Sample variance of a window, matching pandas
`.rolling(window).std()` squared (`ddof = 1`):
`Σ (x - mean)² / (len - 1)`. -/
def sampleVar (xs : List ℚ) : ℚ :=
  (xs.map fun x => (x - listMean xs) ^ 2).sum / (xs.length - 1 : ℕ)

/-- pandas `series.rolling(window=p).std()`, as the real square root of
the rolling sample variance. -/
noncomputable def rollingStd (p : ℕ) (xs : List ℚ) : List (Option ℝ) :=
  (rollingApply sampleVar p xs).map (Option.map fun v : ℚ => Real.sqrt (v : ℝ))

/-- `middle + std * std_dev`, elementwise, NaN wherever either factor is
NaN (`modules/indicators.py` line 70, `technical_analysis.py` line 73). -/
noncomputable def bbUpperList (prices : List ℚ) (p : ℕ) (stdDev : ℝ) : List (Option ℝ) :=
  List.zipWith (fun mo so => mo.bind fun m => so.map fun s => (m : ℝ) + s * stdDev)
    (rollingMean p prices) (rollingStd p prices)

/-- `middle - std * std_dev`, elementwise
(`modules/indicators.py` line 71, `technical_analysis.py` line 74). -/
noncomputable def bbLowerList (prices : List ℚ) (p : ℕ) (stdDev : ℝ) : List (Option ℝ) :=
  List.zipWith (fun mo so => mo.bind fun m => so.map fun s => (m : ℝ) - s * stdDev)
    (rollingMean p prices) (rollingStd p prices)

/-- `%B = (prices - lower) / (upper - lower)`, elementwise over the two
bands.  Note the `ℝ` convention `x / 0 = 0` stands in for the NaN that
pandas produces when `upper == lower`; no claim below depends on the
value at such a position. -/
noncomputable def bbPercentBList (prices : List ℚ) (p : ℕ) (stdDev : ℝ) : List (Option ℝ) :=
  List.zipWith
    (fun c ul => ul.1.bind fun u => ul.2.map fun l => ((c : ℝ) - l) / (u - l))
    prices ((bbUpperList prices p stdDev).zip (bbLowerList prices p stdDev))

/-- Result record of `TechnicalIndicators.calculate_bollinger_bands`
(the `bandwidth` output, unused by every claim, is not embedded). -/
structure BollingerResult where
  middle : List (Option ℚ)
  upper : List (Option ℝ)
  lower : List (Option ℝ)
  percentB : List (Option ℝ)

/-- `TechnicalIndicators.calculate_bollinger_bands`
(`modules/indicators.py` lines 55-85). -/
noncomputable def calculate_bollinger_bands (prices : List ℚ) (p : ℕ) (stdDev : ℝ) :
    BollingerResult :=
  if prices.length < p then
    { middle := List.replicate prices.length none
      upper := List.replicate prices.length none
      lower := List.replicate prices.length none
      percentB := List.replicate prices.length none }
  else
    { middle := rollingMean p prices
      upper := bbUpperList prices p stdDev
      lower := bbLowerList prices p stdDev
      percentB := bbPercentBList prices p stdDev }

/-- Loop body of the OBV computation in
`TechnicalIndicators.calculate_volume_indicators`
(`modules/indicators.py` lines 169-175): add the volume when the close
rose, subtract it when it fell, keep the previous OBV when flat.  The
arguments thread the previous close and previous OBV through the bars. -/
def obvAux : ℚ → ℚ → List (ℚ × ℚ) → List ℚ
  | _, _, [] => []
  | pc, po, (c, v) :: rest =>
    let o := if pc < c then po + v else if c < pc then po - v else po
    o :: obvAux c o rest

/-- OBV part of `TechnicalIndicators.calculate_volume_indicators`
(`modules/indicators.py` lines 165-175): `obv[0] = volume[0]`, then the
rise/fall/flat recurrence (the `vwap` and `volume_ma` outputs of that
function are not needed by any claim). -/
def calculate_obv : List ℚ → List ℚ → List ℚ
  | c :: cs, v :: vs => v :: obvAux c v (cs.zip vs)
  | _, _ => []

/-- `np.sign`. -/
def signum (d : ℚ) : ℚ := if 0 < d then 1 else if d < 0 then -1 else 0

/-- pandas `.cumsum()` with its default `skipna=True`: a NaN entry stays
NaN and the running sum continues past it unchanged. -/
def cumsumSkipna : ℚ → List (Option ℚ) → List (Option ℚ)
  | _, [] => []
  | acc, none :: rest => none :: cumsumSkipna acc rest
  | acc, some x :: rest => some (acc + x) :: cumsumSkipna (acc + x) rest

/-- Vectorized OBV of `FastTechnicalAnalysis._calculate_volume_indicators`
(`modules/technical_analysis.py` lines 85-88):
`(np.sign(close.diff()) * volume).cumsum()`.  The leading NaN of `diff`
makes position 0 NaN. -/
def obvFast (close volume : List ℚ) : List (Option ℚ) :=
  let sgn : List (Option ℚ) :=
    match close with
    | [] => []
    | _ :: _ => none :: (diffs close).map fun d => some (signum d)
  cumsumSkipna 0 (List.zipWith (fun so v => so.map (· * v)) sgn volume)

/-- Working state of `TechnicalIndicators.calculate_parabolic_sar`:
`trend` (`1` bullish, `-1` bearish), acceleration factor `af`, extreme
point `ep`, and the SAR value written at the current bar. -/
structure SarState where
  trend : Int
  af : ℚ
  ep : ℚ
  sar : ℚ
deriving DecidableEq

/-- One iteration of the `for` loop of
`TechnicalIndicators.calculate_parabolic_sar`
(`modules/indicators.py` lines 218-258), in the source's order:
compute `sar = prev + af * (ep - prev)`, clamp it to the bar's low
(bullish) or high (bearish), update `ep`/`af` on a new extreme, then
test the reversal condition on the clamped value. -/
def sarStep (accel maxAf : ℚ) (st : SarState) (h l : ℚ) : SarState :=
  if st.trend = 1 then
    let s0 := st.sar + st.af * (st.ep - st.sar)
    let s1 := if l < s0 then l else s0
    let ea := if st.ep < h then (h, min (st.af + accel) maxAf) else (st.ep, st.af)
    if l < s1 then { trend := -1, af := accel, ep := l, sar := ea.1 }
    else { trend := 1, af := ea.2, ep := ea.1, sar := s1 }
  else
    let s0 := st.sar + st.af * (st.ep - st.sar)
    let s1 := if s0 < h then h else s0
    let ea := if l < st.ep then (l, min (st.af + accel) maxAf) else (st.ep, st.af)
    if s1 < h then { trend := 1, af := accel, ep := h, sar := ea.1 }
    else { trend := -1, af := ea.2, ep := ea.1, sar := s1 }

/-- Iterate `sarStep` over the remaining bars, recording the state after
each bar. -/
def sarRun (accel maxAf : ℚ) : SarState → List (ℚ × ℚ) → List SarState
  | _, [] => []
  | st, (h, l) :: rest =>
    let st2 := sarStep accel maxAf st h l
    st2 :: sarRun accel maxAf st2 rest

/-- The per-bar states of `TechnicalIndicators.calculate_parabolic_sar`:
seeded bullish with `ep = high[0]`, `sar[0] = low[0]`, `af = accel`
(`modules/indicators.py` lines 213-216), then one `sarStep` per later
bar. -/
def sarStates (accel maxAf : ℚ) (high low : List ℚ) : List SarState :=
  match high, low with
  | h :: _, l :: ls =>
    let st0 : SarState := { trend := 1, af := accel, ep := h, sar := l }
    st0 :: sarRun accel maxAf st0 ((high.tail).zip ls)
  | _, _ => []

/-- `TechnicalIndicators.calculate_parabolic_sar`
(`modules/indicators.py` lines 205-260): an all-NaN series on fewer than
two bars, otherwise the SAR value of each per-bar state. -/
def calculate_parabolic_sar (high low : List ℚ) (accel maxAf : ℚ) : List (Option ℚ) :=
  if high.length < 2 then List.replicate high.length none
  else (sarStates accel maxAf high low).map fun st => some st.sar

/-- `AdvancedTechnicalAnalyzer.calculate_rsi`, main loop (`app.py`
lines 123-135): Wilder smoothing
`up = (up * (period - 1) + upval) / period` (same for `down`),
`rs = up / down if down != 0 else 0`, `rsi = 100 - 100 / (1 + rs)`. -/
def rsiLoop (period : ℕ) : ℚ → ℚ → List ℚ → List ℚ
  | _, _, [] => []
  | up, down, d :: rest =>
    let upval := if 0 < d then d else 0
    let downval := if 0 < d then 0 else -d
    let up2 := (up * ((period : ℚ) - 1) + upval) / period
    let down2 := (down * ((period : ℚ) - 1) + downval) / period
    let rs := if down2 ≠ 0 then up2 / down2 else 0
    (100 - 100 / (1 + rs)) :: rsiLoop period up2 down2 rest

/-- `AdvancedTechnicalAnalyzer.calculate_rsi` (`app.py` lines 107-137):
`np.full(len(prices), 50)` when the history is shorter than `period`;
otherwise the first `period` positions carry the seed value built from a
simple average of the first `period` deltas, and the remaining positions
come from the Wilder-smoothed loop over `deltas[period-1:]`. -/
def app_calculate_rsi (prices : List ℚ) (period : ℕ) : List ℚ :=
  if prices.length < period then List.replicate prices.length 50
  else
    let ds := diffs prices
    let seed := ds.take period
    let up0 := (seed.filter fun d => 0 ≤ d).sum / period
    let down0 := -(seed.filter fun d => d < 0).sum / period
    let rs0 := if down0 ≠ 0 then up0 / down0 else 0
    List.replicate period (100 - 100 / (1 + rs0)) ++
      rsiLoop period up0 down0 (ds.drop (period - 1))

/-- Result record of `AdvancedTechnicalAnalyzer.calculate_macd`; unlike
the `modules/indicators.py` version every cell is numeric. -/
structure AppMacdResult where
  macd : List ℚ
  signalLine : List ℚ
  histogram : List ℚ

/-- `AdvancedTechnicalAnalyzer.calculate_macd` (`app.py` lines 182-214):
all-zero lists when `len(prices) < slow + sig`, otherwise EMAs seeded
with the first observation, `macd = ema_fast - ema_slow`,
`signal = ema(macd, sig)`, `histogram = macd - signal`. -/
def app_calculate_macd (prices : List ℚ) (fast slow sig : ℕ) : AppMacdResult :=
  if prices.length < slow + sig then
    { macd := List.replicate prices.length 0
      signalLine := List.replicate prices.length 0
      histogram := List.replicate prices.length 0 }
  else
    let macdLine := List.zipWith (fun a b => a - b) (ewma fast prices) (ewma slow prices)
    let signalLine := ewma sig macdLine
    { macd := macdLine
      signalLine := signalLine
      histogram := List.zipWith (fun a b => a - b) macdLine signalLine }

/-- Input frame of `FastTechnicalAnalysis`: only the `Close` and
`Volume` columns are read by the embedded methods. -/
structure Df where
  close : List ℚ
  volume : List ℚ

/-- The columns of `self.df` after `FastTechnicalAnalysis.calculate_all`.
`MA_*` and `RSI` are only added when the series is long enough (the
Python code skips the assignment), hence the outer `Option`; the MACD
family is always numeric; the Bollinger, volume-MA and OBV columns are
always added but carry NaN (`none`) cells where history is
insufficient. -/
structure AnalysisTable where
  close : List ℚ
  volume : List ℚ
  ma20 : Option (List (Option ℚ))
  ma50 : Option (List (Option ℚ))
  ma200 : Option (List (Option ℚ))
  rsi : Option (List (Option ℚ))
  macd : List ℚ
  macdSignal : List ℚ
  macdHist : List ℚ
  bbMiddle : List (Option ℚ)
  bbUpper : List (Option ℝ)
  bbLower : List (Option ℝ)
  bbPercentB : List (Option ℝ)
  volumeMA20 : List (Option ℚ)
  obv : List (Option ℚ)

/-- `FastTechnicalAnalysis._calculate_macd`, MACD line
(`technical_analysis.py` lines 59-62): `ewm(12) - ewm(26)`. -/
def fastMacdLine (prices : List ℚ) : List ℚ :=
  List.zipWith (fun a b => a - b) (ewma 12 prices) (ewma 26 prices)

/-- `FastTechnicalAnalysis._calculate_macd`, signal line
(line 63): `ewm(macd, 9)`. -/
def fastSignalLine (prices : List ℚ) : List ℚ :=
  ewma 9 (fastMacdLine prices)

/-- `FastTechnicalAnalysis.calculate_all`
(`technical_analysis.py` lines 16-32): runs every `_calculate_*` helper
in order.  None of the embedded operations can fail, mirroring the fact
that the Python pipeline raises on no input (the wrapping
`try/except` is dead for the embedded columns) and returns `self.df` for
any frame, including an empty one. -/
noncomputable def calculateAll (df : Df) : AnalysisTable :=
  { close := df.close
    volume := df.volume
    ma20 := if 20 ≤ df.close.length then some (rollingMean 20 df.close) else none
    ma50 := if 50 ≤ df.close.length then some (rollingMean 50 df.close) else none
    ma200 := if 200 ≤ df.close.length then some (rollingMean 200 df.close) else none
    rsi := if 14 ≤ df.close.length then some (pandasRsi df.close 14) else none
    macd := fastMacdLine df.close
    macdSignal := fastSignalLine df.close
    macdHist := List.zipWith (fun a b => a - b) (fastMacdLine df.close) (fastSignalLine df.close)
    bbMiddle := rollingMean 20 df.close
    bbUpper := bbUpperList df.close 20 2
    bbLower := bbLowerList df.close 20 2
    bbPercentB := bbPercentBList df.close 20 2
    volumeMA20 := rollingMean 20 df.volume
    obv := obvFast df.close df.volume }

/-- A discrete alert; the formatted description strings of the source
carry no decision content and are not embedded. -/
structure Signal where
  kind : String
  title : String
deriving DecidableEq

/-- MACD-crossover block of `FastTechnicalAnalysis._generate_signals`
(`technical_analysis.py` lines 120-134): bullish when
`latest.MACD > latest.MACD_Signal and prev.MACD <= prev.MACD_Signal`,
bearish in the `elif` mirror case with
`latest.MACD < latest.MACD_Signal and prev.MACD >= prev.MACD_Signal`. -/
def macdCrossSignals (prevM prevS curM curS : ℚ) : List Signal :=
  if curS < curM ∧ prevM ≤ prevS then [⟨"success", "MACD Croisement Haussier"⟩]
  else if curM < curS ∧ prevS ≤ prevM then [⟨"danger", "MACD Croisement Baissier"⟩]
  else []

/-- MACD block of the `analyse` route (`app.py` lines 347-358): bullish
when `prev_macd < prev_signal and current_macd > current_signal`,
bearish in the `elif` mirror case — both comparisons on the previous row
are strict, unlike `FastTechnicalAnalysis`. -/
def appMacdSignals (prevM prevS curM curS : ℚ) : List Signal :=
  if prevM < prevS ∧ curS < curM then [⟨"success", "Signal MACD"⟩]
  else if prevS < prevM ∧ curM < curS then [⟨"danger", "Signal MACD"⟩]
  else []

/-- RSI block of `FastTechnicalAnalysis._generate_signals`
(lines 102-117): requires the `RSI` column to exist and its latest cell
to be non-NaN. -/
def rsiSignalsOf (rsiCol : Option (List (Option ℚ))) : List Signal :=
  match rsiCol.bind fun col => col.getLast?.bind id with
  | some v =>
      if 70 < v then [⟨"danger", "RSI Surachat"⟩]
      else if v < 30 then [⟨"success", "RSI Survente"⟩]
      else []
  | none => []

/-- Volume-spike block of `FastTechnicalAnalysis._generate_signals`
(lines 137-144): `latest.Volume > latest.Volume_MA20 * 1.5`; a NaN
volume MA fails the comparison. -/
def volumeSpikeSignals (lastVol : Option ℚ) (lastVolMA : Option ℚ) : List Signal :=
  match lastVol, lastVolMA with
  | some v, some m => if m * (3 / 2) < v then [⟨"warning", "Volume Élevé"⟩] else []
  | _, _ => []

/-- `FastTechnicalAnalysis._generate_signals`
(`technical_analysis.py` lines 90-146): the empty list on fewer than two
rows, otherwise the RSI, MACD-crossover and volume-spike rules applied
to the last two rows. -/
def generateSignals (t : AnalysisTable) : List Signal :=
  if t.close.length < 2 then []
  else
    rsiSignalsOf t.rsi ++
      (match t.macd.dropLast.getLast?, t.macdSignal.dropLast.getLast?,
          t.macd.getLast?, t.macdSignal.getLast? with
        | some pm, some ps, some cm, some cs => macdCrossSignals pm ps cm cs
        | _, _, _, _ => []) ++
      volumeSpikeSignals t.volume.getLast? (t.volumeMA20.getLast?.bind id)

/-- `FastTechnicalAnalysis.get_summary` return record (lines 155-162).
Outer `Option`s mirror `None` for a column that was never added; inner
`Option`s mirror a NaN cell of an existing column. -/
structure Summary where
  lastPrice : ℚ
  rsiVal : Option (Option ℚ)
  macdVal : Option ℚ
  bbPos : Option ℝ
  volOverMA : Option ℚ
  alerts : List Signal

/-- `FastTechnicalAnalysis.get_summary`
(`technical_analysis.py` lines 148-162): the empty dict on fewer than
two rows, otherwise the latest row of each column (the `getD 0` for the
last price is unreachable: the branch has at least two rows). -/
noncomputable def getSummary (t : AnalysisTable) (stored : List Signal) : Option Summary :=
  if t.close.length < 2 then none
  else
    some
      { lastPrice := t.close.getLast?.getD 0
        rsiVal := t.rsi.map fun col => col.getLast?.bind id
        macdVal := t.macd.getLast?
        bbPos := t.bbPercentB.getLast?.bind id
        volOverMA := (t.volumeMA20.getLast?.bind id).bind fun m =>
          t.volume.getLast?.map fun v => v / m
        alerts := stored }

/-- Synthetic rising-then-falling highs for the Parabolic SAR scenario:
five monotonically rising bars followed by five falling ones. -/
def c2High : List ℚ := [10, 11, 12, 13, 14, 13, 12, 11, 10, 9]

/-- Lows of the same synthetic path, one point below each high. -/
def c2Low : List ℚ := [9, 10, 11, 12, 13, 12, 11, 10, 9, 8]

/-- A strictly rising 15-bar close series (every delta is `+1`), so the
Wilder average loss is `0` at every position. -/
def c3Prices : List ℚ := [1, 2, 3, 4, 5, 6, 7, 8, 9, 10, 11, 12, 13, 14, 15]

/-- A one-bar frame: non-empty, but shorter than every warm-up window. -/
def c4Df : Df := { close := [100], volume := [1000] }

/-- A 20-bar series where every close is higher than the previous one. -/
def c5Close : List ℚ :=
  [1, 2, 3, 4, 5, 6, 7, 8, 9, 10, 11, 12, 13, 14, 15, 16, 17, 18, 19, 20]

/-- Volumes of the 20-bar up-day series, `10` per bar (total `200`). -/
def c5Vol : List ℚ :=
  [10, 10, 10, 10, 10, 10, 10, 10, 10, 10, 10, 10, 10, 10, 10, 10, 10, 10, 10, 10]

theorem ewmaAux_length (k : ℚ) (prev : ℚ) (xs : List ℚ) :
    (ewmaAux k prev xs).length = xs.length := by
  induction xs generalizing prev with
  | nil => rfl
  | cons x rest ih => simp [ewmaAux, ih]

theorem ewma_length (span : ℕ) (xs : List ℚ) : (ewma span xs).length = xs.length := by
  cases xs with
  | nil => rfl
  | cons x rest => simp [ewma, ewmaAux_length]

theorem fastMacdLine_length (prices : List ℚ) :
    (fastMacdLine prices).length = prices.length := by
  simp [fastMacdLine, List.length_zipWith, ewma_length]

theorem fastSignalLine_length (prices : List ℚ) :
    (fastSignalLine prices).length = prices.length := by
  simp [fastSignalLine, ewma_length, fastMacdLine_length]

theorem rollingApply_get? (f : List ℚ → ℚ) (p : ℕ) (xs : List ℚ) (i : ℕ)
    (hi : i < xs.length) :
    (rollingApply f p xs).get? i =
      some (if p ≤ i + 1 then some (f ((xs.take (i + 1)).drop (i + 1 - p))) else none) := by
  unfold rollingApply
  rw [List.get?_map, List.get?_range hi]
  rfl

theorem rollingApply_length (f : List ℚ → ℚ) (p : ℕ) (xs : List ℚ) :
    (rollingApply f p xs).length = xs.length := by
  simp [rollingApply]

theorem replicate_get?_eq {α : Type} (n i : ℕ) (a b : α)
    (h : (List.replicate n a).get? i = some b) : b = a :=
  List.eq_of_mem_replicate (List.get?_mem h)

theorem listMean_nonneg (xs : List ℚ) (h : ∀ x ∈ xs, 0 ≤ x) : 0 ≤ listMean xs :=
  div_nonneg (List.sum_nonneg h) (Nat.cast_nonneg _)

theorem rollingMean_nonneg (p : ℕ) (xs : List ℚ) (hxs : ∀ x ∈ xs, 0 ≤ x)
    (i : ℕ) (g : ℚ) (hg : (rollingMean p xs).get? i = some (some g)) : 0 ≤ g := by
  by_cases hi : i < xs.length
  · rw [rollingMean, rollingApply_get? _ _ _ _ hi] at hg
    by_cases hp : p ≤ i + 1
    · rw [if_pos hp] at hg
      obtain rfl : listMean ((xs.take (i + 1)).drop (i + 1 - p)) = g := by
        simpa using hg
      exact listMean_nonneg _ fun x hx =>
        hxs x (List.mem_of_mem_take (List.mem_of_mem_drop hx))
    · rw [if_neg hp] at hg
      simp at hg
  · rw [List.get?_eq_none.2] at hg
    · simp at hg
    · rw [rollingMean, rollingApply_length]
      omega

theorem rsiFormula_bounds (rs : ℚ) (hrs : 0 ≤ rs) :
    0 ≤ 100 - 100 / (1 + rs) ∧ 100 - 100 / (1 + rs) ≤ 100 := by
  have h1 : (0 : ℚ) < 1 + rs := by linarith
  have h2 : 100 / (1 + rs) ≤ 100 := div_le_self (by norm_num) (by linarith)
  have h3 : 0 < 100 / (1 + rs) := by positivity
  constructor <;> linarith

theorem sarStep_stays_bullish (accel maxAf : ℚ) (st : SarState) (h l : ℚ)
    (ht : st.trend = 1) : (sarStep accel maxAf st h l).trend = 1 := by
  unfold sarStep
  rw [if_pos ht]
  by_cases h1 : l < st.sar + st.af * (st.ep - st.sar)
  · simp only [h1, if_true, lt_irrefl, if_false]
  · simp only [h1, if_false]

theorem sarRun_stays_bullish (accel maxAf : ℚ) (bars : List (ℚ × ℚ)) :
    ∀ st : SarState, st.trend = 1 →
      ∀ st2 ∈ sarRun accel maxAf st bars, st2.trend = 1 := by
  induction bars with
  | nil => intro st _ st2 h2; simp [sarRun] at h2
  | cons b rest ih =>
      intro st hst st2 h2
      obtain ⟨bh, bl⟩ := b
      simp only [sarRun, List.mem_cons] at h2
      rcases h2 with rfl | h2
      · exact sarStep_stays_bullish accel maxAf st bh bl hst
      · exact ih _ (sarStep_stays_bullish accel maxAf st bh bl hst) st2 h2

/-- For every input path, every state of `calculate_parabolic_sar` is
Bullish: the reversal test compares the SAR that was just clamped to the
bar's low against that same low, so the flip to Bearish is unreachable. -/
theorem sarStates_all_bullish (accel maxAf : ℚ) (high low : List ℚ) :
    ∀ st ∈ sarStates accel maxAf high low, st.trend = 1 := by
  intro st hst
  unfold sarStates at hst
  cases high with
  | nil => simp at hst
  | cons h hs =>
      cases low with
      | nil => simp at hst
      | cons l ls =>
          simp only [List.mem_cons] at hst
          rcases hst with rfl | hst
          · rfl
          · exact sarRun_stays_bullish accel maxAf _ _ rfl st hst

/-- C1: on a series shorter than the minimum window, the
`modules/indicators.py` calculators do return only undefined cells, but
the `app.py` calculators cited by the claim fabricate exactly the neutral
numeric defaults the claim rules out: `calculate_rsi` fills every
position with the constant `50`, and `calculate_macd` fills the macd,
signal and histogram series with `0`. -/
theorem c1_short_history_defaults :
    calculate_rsi [1, 2] 14 = [none, none] ∧
    (calculate_macd [1, 2] 12 26 9).macd = [none, none] ∧
    (calculate_macd [1, 2] 12 26 9).signalLine = [none, none] ∧
    (calculate_macd [1, 2] 12 26 9).histogram = [none, none] ∧
    app_calculate_rsi [1, 2] 14 = [50, 50] ∧
    (app_calculate_macd [1, 2] 12 26 9).macd = [0, 0] ∧
    (app_calculate_macd [1, 2] 12 26 9).signalLine = [0, 0] ∧
    (app_calculate_macd [1, 2] 12 26 9).histogram = [0, 0] := by
  refine ⟨?_, ?_, ?_, ?_, ?_, ?_, ?_, ?_⟩ <;> decide

/-- C2: on the synthetic rising-then-falling path the SAR state of
`TechnicalIndicators.calculate_parabolic_sar` never flips to Bearish:
the reversal test reads the SAR value that the preceding clamp already
forced to be at most the bar's low, so the trend stays `1` (Bullish) at
all ten bars, whereas the claim requires exactly one flip. -/
theorem c2_sar_trend_never_flips :
    ((sarStates (1 / 50) (1 / 5) c2High c2Low).map fun st => st.trend) =
      [1, 1, 1, 1, 1, 1, 1, 1, 1, 1] ∧
    (calculate_parabolic_sar c2High c2Low (1 / 50) (1 / 5)).length = 10 := by
  constructor
  · norm_num [sarStates, sarRun, sarStep, c2High, c2Low, min_def]
  · norm_num [calculate_parabolic_sar, c2High, sarStates, sarRun, sarStep, c2Low, min_def]

/-- C3: on a strictly rising series the Wilder-smoothed average loss is
`0` at every position, and `AdvancedTechnicalAnalyzer.calculate_rsi`
then takes its `rs = 0` fallback, producing RSI `0` everywhere — not the
`100` the claim (and the standard RSI definition) requires. -/
theorem c3_pure_uptrend_rsi_zero :
    app_calculate_rsi c3Prices 14 =
      [0, 0, 0, 0, 0, 0, 0, 0, 0, 0, 0, 0, 0, 0, 0] := by
  norm_num [app_calculate_rsi, c3Prices, rsiLoop, diffs, List.filter,
    List.replicate_succ]

/-- C4 counterexample: a one-bar frame is non-empty, yet the result
table of `FastTechnicalAnalysis.calculate_all` contains no `RSI` and no
`MA_20` column at all — the claim's "a column for every indicator, with
undefined markers where history is insufficient" fails on it. -/
theorem c4_counterexample :
    c4Df.close ≠ [] ∧
    (calculateAll c4Df).rsi = none ∧
    (calculateAll c4Df).ma20 = none := by
  refine ⟨by simp [c4Df], ?_, ?_⟩ <;> simp [calculateAll, c4Df]

/-- C4 amended: `calculate_all` is total and signals nothing — on any
frame, empty included, it returns the table.  The `MA_20/50/200` and
`RSI` columns exist exactly when the series reaches their periods and
are simply absent otherwise; the MACD family is always present and
aligned with the input; the Bollinger middle band is always present with
an undefined cell exactly while fewer than 20 bars of history exist. -/
theorem c4_amended (df : Df) (i : ℕ) (hi : i < df.close.length) :
    ((calculateAll df).rsi = none ↔ df.close.length < 14) ∧
    ((calculateAll df).ma20 = none ↔ df.close.length < 20) ∧
    ((calculateAll df).ma50 = none ↔ df.close.length < 50) ∧
    ((calculateAll df).ma200 = none ↔ df.close.length < 200) ∧
    (calculateAll df).macd.length = df.close.length ∧
    (calculateAll df).macdSignal.length = df.close.length ∧
    (calculateAll df).macdHist.length = df.close.length ∧
    (calculateAll df).bbMiddle.length = df.close.length ∧
    ((calculateAll df).bbMiddle.get? i = some none ↔ i + 1 < 20) := by
  refine ⟨?_, ?_, ?_, ?_, ?_, ?_, ?_, ?_, ?_⟩
  · simp [calculateAll]
  · simp [calculateAll]
  · simp [calculateAll]
  · simp [calculateAll]
  · simp [calculateAll, fastMacdLine_length]
  · simp [calculateAll, fastSignalLine_length]
  · simp [calculateAll, List.length_zipWith, fastMacdLine_length, fastSignalLine_length]
  · simp [calculateAll, rollingMean, rollingApply_length]
  · show (rollingMean 20 df.close).get? i = some none ↔ i + 1 < 20
    rw [rollingMean, rollingApply_get? _ _ _ _ hi]
    constructor
    · intro hsome
      by_contra hlt
      have h20 : 20 ≤ i + 1 := by omega
      rw [if_pos h20] at hsome
      simp at hsome
    · intro hlt
      rw [if_neg (by omega)]

/-- Witness for `c4_amended` at the concrete one-bar frame. -/
theorem c4_amended_witness :
    (calculateAll c4Df).rsi = none ↔ c4Df.close.length < 14 :=
  (c4_amended c4Df 0 (by simp [c4Df])).1

/-- C5 counterexample: on the 20-bar all-up series the vectorized OBV of
`FastTechnicalAnalysis._calculate_volume_indicators` is undefined (NaN)
at bar 0 — not equal to the first bar's volume — and its final value is
`190`, the sum of the volumes of bars 1..19, not the claimed sum `200`
of all 20 volumes. -/
theorem c5_counterexample :
    (obvFast c5Close c5Vol).get? 0 = some none ∧
    (obvFast c5Close c5Vol).getLast? = some (some 190) ∧
    c5Vol.sum = 200 := by
  refine ⟨?_, ?_, ?_⟩ <;>
    norm_num [obvFast, cumsumSkipna, diffs, signum, c5Close, c5Vol]

/-- C5 amended: the claim holds of the indicator-library OBV
(`TechnicalIndicators.calculate_volume_indicators`): it starts at the
first bar's volume, follows the add/subtract/hold recurrence, and on the
20-bar all-up series is non-decreasing with final value the sum of all
volumes.  The vectorized OBV of `FastTechnicalAnalysis` instead leaves
bar 0 undefined and its final value is the sum of the volumes from
bar 1 on. -/
theorem c5_amended :
    (∀ (c0 v0 : ℚ) (cs vs : List ℚ),
      (calculate_obv (c0 :: cs) (v0 :: vs)).head? = some v0) ∧
    (∀ (pc po c v : ℚ) (rest : List (ℚ × ℚ)),
      (obvAux pc po ((c, v) :: rest)).head? =
        some (if pc < c then po + v else if c < pc then po - v else po)) ∧
    List.Chain' (· ≤ ·) (calculate_obv c5Close c5Vol) ∧
    (calculate_obv c5Close c5Vol).getLast? = some c5Vol.sum ∧
    (obvFast c5Close c5Vol).get? 0 = some none ∧
    (obvFast c5Close c5Vol).getLast? = some (some (c5Vol.drop 1).sum) := by
  refine ⟨fun c0 v0 cs vs => rfl, fun pc po c v rest => rfl, ?_, ?_, ?_, ?_⟩
  · have hv : calculate_obv c5Close c5Vol =
        [10, 20, 30, 40, 50, 60, 70, 80, 90, 100,
         110, 120, 130, 140, 150, 160, 170, 180, 190, 200] := by
      norm_num [calculate_obv, obvAux, c5Close, c5Vol]
    rw [hv]
    norm_num [List.chain'_cons]
  · norm_num [calculate_obv, obvAux, c5Close, c5Vol]
  · norm_num [obvFast, cumsumSkipna, diffs, signum, c5Close, c5Vol]
  · norm_num [obvFast, cumsumSkipna, diffs, signum, c5Close, c5Vol]

/-- C6 counterexample: with the previous row at `macd = signal = 0` and
the current row at `macd = 1 > 0 = signal` the claim demands the bullish
MACD-cross signal, but the `analyse` route of `app.py` — which uses a
strict comparison on the previous row — emits nothing. -/
theorem c6_counterexample :
    ((0 : ℚ) ≤ 0 ∧ (0 : ℚ) < 1) ∧ appMacdSignals 0 0 1 0 = [] := by
  norm_num [appMacdSignals]

set_option linter.unusedTactic false in
/-- C6 amended: the signal generator of
`FastTechnicalAnalysis._generate_signals` matches the claim exactly
(bullish iff previous `macd ≤ signal` and current `macd > signal`,
bearish in the mirror case, nothing otherwise), while the `analyse`
route of `app.py` emits its MACD signals only under strict previous-row
comparisons, staying silent when the previous row has
`macd = signal`. -/
theorem c6_amended (pm ps cm cs : ℚ) :
    (macdCrossSignals pm ps cm cs = [⟨"success", "MACD Croisement Haussier"⟩] ↔
      pm ≤ ps ∧ cs < cm) ∧
    (macdCrossSignals pm ps cm cs = [⟨"danger", "MACD Croisement Baissier"⟩] ↔
      ps ≤ pm ∧ cm < cs) ∧
    (macdCrossSignals pm ps cm cs = [] ↔
      ¬(pm ≤ ps ∧ cs < cm) ∧ ¬(ps ≤ pm ∧ cm < cs)) ∧
    (appMacdSignals pm ps cm cs = [⟨"success", "Signal MACD"⟩] ↔ pm < ps ∧ cs < cm) ∧
    (appMacdSignals pm ps cm cs = [⟨"danger", "Signal MACD"⟩] ↔ ps < pm ∧ cm < cs) := by
  unfold macdCrossSignals appMacdSignals
  refine ⟨?_, ?_, ?_, ?_, ?_⟩ <;>
    · split_ifs with h1 h2 <;>
        simp_all [Signal.mk.injEq] <;>
        first
          | (intro h; linarith)
          | (constructor <;> intro h <;> linarith)
          | (intro h; by_contra hc; push_neg at hc;
             first
               | exact absurd h (not_le.2 (h1 hc))
               | exact absurd h (not_le.2 (h2 hc)))
          | (constructor <;>
              (intro h; by_contra hc; push_neg at hc;
               first
                 | exact absurd h (not_le.2 (h1 hc))
                 | exact absurd h (not_le.2 (h2 hc))))

theorem zipWith_sub_get? (xs ys : List ℚ) (i : ℕ) (z : ℚ)
    (h : (List.zipWith (fun a b => a - b) xs ys).get? i = some z) :
    ∃ a b, xs.get? i = some a ∧ ys.get? i = some b ∧ z = a - b := by
  rcases (List.get?_zipWith_eq_some _ _ _ _ _).1 h with ⟨a, b, ha, hb, hz⟩
  exact ⟨a, b, ha, hb, hz.symm⟩

/-- C7: in all three implementations the histogram cell at any index is
exactly the macd cell minus the signal cell of the same result instance:
`TechnicalIndicators.calculate_macd`,
`AdvancedTechnicalAnalyzer.calculate_macd` (where the short-history
branch gives `0 = 0 - 0`), and the `MACD_Hist` column written by
`FastTechnicalAnalysis.calculate_all`. -/
theorem c7_histogram_exact (prices : List ℚ) (fast slow sig i : ℕ) :
    (∀ h m s : ℚ,
      (calculate_macd prices fast slow sig).histogram.get? i = some (some h) →
      (calculate_macd prices fast slow sig).macd.get? i = some (some m) →
      (calculate_macd prices fast slow sig).signalLine.get? i = some (some s) →
      h = m - s) ∧
    (∀ h m s : ℚ,
      (app_calculate_macd prices fast slow sig).histogram.get? i = some h →
      (app_calculate_macd prices fast slow sig).macd.get? i = some m →
      (app_calculate_macd prices fast slow sig).signalLine.get? i = some s →
      h = m - s) ∧
    (∀ (df : Df) (h m s : ℚ),
      (calculateAll df).macdHist.get? i = some h →
      (calculateAll df).macd.get? i = some m →
      (calculateAll df).macdSignal.get? i = some s →
      h = m - s) := by
  refine ⟨?_, ?_, ?_⟩
  · intro h m s hh hm hs
    unfold calculate_macd at hh hm hs
    by_cases hlen : prices.length < slow
    · rw [if_pos hlen] at hh
      have := replicate_get?_eq _ _ _ _ hh
      simp at this
    · rw [if_neg hlen] at hh hm hs
      simp only [List.get?_map] at hh hm hs
      obtain ⟨ho, hho, hosome⟩ : ∃ o, (List.zipWith (fun a b => a - b)
          (List.zipWith (fun a b => a - b) (ewma fast prices) (ewma slow prices))
          (ewma sig (List.zipWith (fun a b => a - b) (ewma fast prices)
            (ewma slow prices)))).get? i = some o ∧ o = h := by
        cases hx : (List.zipWith (fun a b => a - b)
            (List.zipWith (fun a b => a - b) (ewma fast prices) (ewma slow prices))
            (ewma sig (List.zipWith (fun a b => a - b) (ewma fast prices)
              (ewma slow prices)))).get? i with
        | none => rw [hx] at hh; simp at hh
        | some o => rw [hx] at hh; simp at hh; exact ⟨o, rfl, hh⟩
      obtain ⟨a, b, ha, hb, hab⟩ := zipWith_sub_get? _ _ _ _ hho
      obtain ⟨m2, hm2, hm2e⟩ : ∃ m2, (List.zipWith (fun a b => a - b)
          (ewma fast prices) (ewma slow prices)).get? i = some m2 ∧ m2 = m := by
        cases hx : (List.zipWith (fun a b => a - b) (ewma fast prices)
            (ewma slow prices)).get? i with
        | none => rw [hx] at hm; simp at hm
        | some o => rw [hx] at hm; simp at hm; exact ⟨o, rfl, hm⟩
      obtain ⟨s2, hs2, hs2e⟩ : ∃ s2, (ewma sig (List.zipWith (fun a b => a - b)
          (ewma fast prices) (ewma slow prices))).get? i = some s2 ∧ s2 = s := by
        cases hx : (ewma sig (List.zipWith (fun a b => a - b) (ewma fast prices)
            (ewma slow prices))).get? i with
        | none => rw [hx] at hs; simp at hs
        | some o => rw [hx] at hs; simp at hs; exact ⟨o, rfl, hs⟩
      rw [ha] at hm2
      rw [hb] at hs2
      rw [← hosome, hab, Option.some_inj.1 hm2, Option.some_inj.1 hs2, hm2e, hs2e]
  · intro h m s hh hm hs
    unfold app_calculate_macd at hh hm hs
    by_cases hlen : prices.length < slow + sig
    · rw [if_pos hlen] at hh hm hs
      have h0 := replicate_get?_eq _ _ _ _ hh
      have m0 := replicate_get?_eq _ _ _ _ hm
      have s0 := replicate_get?_eq _ _ _ _ hs
      rw [h0, m0, s0]
      norm_num
    · rw [if_neg hlen] at hh hm hs
      obtain ⟨a, b, ha, hb, hab⟩ := zipWith_sub_get? _ _ _ _ hh
      rw [ha] at hm
      rw [hb] at hs
      rw [hab, Option.some_inj.1 hm, Option.some_inj.1 hs]
  · intro df h m s hh hm hs
    simp only [calculateAll] at hh hm hs
    obtain ⟨a, b, ha, hb, hab⟩ := zipWith_sub_get? _ _ _ _ hh
    rw [show (fastMacdLine df.close).get? i = some a from ha] at hm
    rw [show (fastSignalLine df.close).get? i = some b from hb] at hs
    rw [hab, Option.some_inj.1 hm, Option.some_inj.1 hs]

/-- Witness for `c7_histogram_exact`: all three parts instantiated at
concrete inputs (`prices = [1, 2]`, unit spans, index 0, and the one-bar
frame for the `calculate_all` part). -/
theorem c7_histogram_exact_witness :
    ((0 : ℚ) = 0 - 0) ∧ ((0 : ℚ) = 0 - 0) ∧ ((0 : ℚ) = 0 - 0) := by
  refine ⟨?_, ?_, ?_⟩
  · exact (c7_histogram_exact [1, 2] 1 1 1 0).1 0 0 0
      (by norm_num [calculate_macd, ewma, ewmaAux])
      (by norm_num [calculate_macd, ewma, ewmaAux])
      (by norm_num [calculate_macd, ewma, ewmaAux])
  · exact (c7_histogram_exact [1, 2] 1 1 1 0).2.1 0 0 0
      (by norm_num [app_calculate_macd, ewma, ewmaAux])
      (by norm_num [app_calculate_macd, ewma, ewmaAux])
      (by norm_num [app_calculate_macd, ewma, ewmaAux])
  · exact (c7_histogram_exact [1, 2] 1 1 1 0).2.2 c4Df 0 0 0
      (by norm_num [calculateAll, c4Df, fastMacdLine, fastSignalLine, ewma, ewmaAux])
      (by norm_num [calculateAll, c4Df, fastMacdLine, fastSignalLine, ewma, ewmaAux])
      (by norm_num [calculateAll, c4Df, fastMacdLine, fastSignalLine, ewma, ewmaAux])

theorem rollingStd_get?_nonneg (p : ℕ) (xs : List ℚ) (i : ℕ) (s : ℝ)
    (hs : (rollingStd p xs).get? i = some (some s)) : 0 ≤ s := by
  unfold rollingStd at hs
  rw [List.get?_map] at hs
  cases hx : (rollingApply sampleVar p xs).get? i with
  | none => rw [hx] at hs; simp at hs
  | some o =>
      rw [hx] at hs
      cases o with
      | none => simp at hs
      | some v =>
          have : Real.sqrt (v : ℝ) = s := by simpa using hs
          rw [← this]
          exact Real.sqrt_nonneg _

theorem bb_entry_bounds (prices : List ℚ) (p : ℕ) (k : ℝ) (hk : 0 ≤ k) (i : ℕ)
    (u l : ℝ) (m : ℚ)
    (hu : (bbUpperList prices p k).get? i = some (some u))
    (hm : (rollingMean p prices).get? i = some (some m))
    (hl : (bbLowerList prices p k).get? i = some (some l)) :
    l ≤ (m : ℝ) ∧ (m : ℝ) ≤ u := by
  unfold bbUpperList at hu
  unfold bbLowerList at hl
  rcases (List.get?_zipWith_eq_some _ _ _ _ _).1 hu with ⟨mo, so, hmo, hso, hval⟩
  rcases (List.get?_zipWith_eq_some _ _ _ _ _).1 hl with ⟨mo2, so2, hmo2, hso2, hval2⟩
  have e1 : mo = some m := Option.some_inj.1 (hmo.symm.trans hm)
  have e2 : mo2 = some m := Option.some_inj.1 (hmo2.symm.trans hm)
  have e3 : so2 = so := Option.some_inj.1 (hso2.symm.trans hso)
  subst e1
  subst e2
  subst e3
  cases so2 with
  | none => simp at hval
  | some s =>
      simp only [Option.some_bind, Option.map_some', Option.some_inj] at hval hval2
      have hs : 0 ≤ s := rollingStd_get?_nonneg p prices i s hso
      have hsk : 0 ≤ s * k := mul_nonneg hs hk
      constructor
      · rw [← hval2]; linarith
      · rw [← hval]; linarith

/-- C8: wherever the upper, middle and lower Bollinger bands are all
defined, `lower ≤ middle ≤ upper` holds — both for
`TechnicalIndicators.calculate_bollinger_bands` with any non-negative
band multiplier and for the `BB_*` columns written by
`FastTechnicalAnalysis.calculate_all` (multiplier 2). -/
theorem c8_bollinger_order :
    (∀ (prices : List ℚ) (p : ℕ) (k : ℝ), 0 ≤ k → ∀ (i : ℕ) (u l : ℝ) (m : ℚ),
      (calculate_bollinger_bands prices p k).upper.get? i = some (some u) →
      (calculate_bollinger_bands prices p k).middle.get? i = some (some m) →
      (calculate_bollinger_bands prices p k).lower.get? i = some (some l) →
      l ≤ (m : ℝ) ∧ (m : ℝ) ≤ u) ∧
    (∀ (df : Df) (i : ℕ) (u l : ℝ) (m : ℚ),
      (calculateAll df).bbUpper.get? i = some (some u) →
      (calculateAll df).bbMiddle.get? i = some (some m) →
      (calculateAll df).bbLower.get? i = some (some l) →
      l ≤ (m : ℝ) ∧ (m : ℝ) ≤ u) := by
  constructor
  · intro prices p k hk i u l m hu hm hl
    unfold calculate_bollinger_bands at hu hm hl
    by_cases hlen : prices.length < p
    · rw [if_pos hlen] at hu
      have := replicate_get?_eq _ _ _ _ hu
      simp at this
    · rw [if_neg hlen] at hu hm hl
      exact bb_entry_bounds prices p k hk i u l m hu hm hl
  · intro df i u l m hu hm hl
    simp only [calculateAll] at hu hm hl
    exact bb_entry_bounds df.close 20 2 (by norm_num) i u l m hu hm hl

/-- Witness for `c8_bollinger_order`: the two-bar constant series
`[5, 5]` with period 2 and multiplier 2, where the rolling standard
deviation is `√0`. -/
theorem c8_bollinger_order_witness :
    (5 : ℝ) - Real.sqrt 0 * 2 ≤ ((5 : ℚ) : ℝ) ∧
      ((5 : ℚ) : ℝ) ≤ (5 : ℝ) + Real.sqrt 0 * 2 := by
  have hvar : rollingApply sampleVar 2 [5, 5] = [none, some 0] := by
    norm_num [rollingApply, sampleVar, listMean, List.range_succ]
  have hstd : rollingStd 2 [5, 5] = [none, some (Real.sqrt 0)] := by
    rw [rollingStd, hvar]
    norm_num
  have hmean : rollingMean 2 [5, 5] = [none, some 5] := by
    norm_num [rollingMean, rollingApply, listMean, List.range_succ]
  have hup : (calculate_bollinger_bands [5, 5] 2 2).upper.get? 1 =
      some (some ((5 : ℝ) + Real.sqrt 0 * 2)) := by
    unfold calculate_bollinger_bands
    rw [if_neg (by norm_num)]
    show (bbUpperList [5, 5] 2 2).get? 1 = _
    unfold bbUpperList
    rw [hmean, hstd]
    norm_num
  have hmid : (calculate_bollinger_bands [5, 5] 2 2).middle.get? 1 = some (some 5) := by
    unfold calculate_bollinger_bands
    rw [if_neg (by norm_num)]
    show (rollingMean 2 [5, 5]).get? 1 = _
    rw [hmean]
    rfl
  have hlo : (calculate_bollinger_bands [5, 5] 2 2).lower.get? 1 =
      some (some ((5 : ℝ) - Real.sqrt 0 * 2)) := by
    unfold calculate_bollinger_bands
    rw [if_neg (by norm_num)]
    show (bbLowerList [5, 5] 2 2).get? 1 = _
    unfold bbLowerList
    rw [hmean, hstd]
    norm_num
  exact c8_bollinger_order.1 [5, 5] 2 2 (by norm_num) 1
    ((5 : ℝ) + Real.sqrt 0 * 2) ((5 : ℝ) - Real.sqrt 0 * 2) 5 hup hmid hlo

theorem gains_nonneg (ps : List ℚ) : ∀ x ∈ gains ps, 0 ≤ x := by
  intro x hx
  cases ps with
  | nil => simp [gains] at hx
  | cons p rest =>
      simp only [gains, List.mem_cons] at hx
      rcases hx with rfl | hx
      · exact le_refl 0
      · rcases List.mem_map.1 hx with ⟨d, _, rfl⟩
        split_ifs with hd
        · exact le_of_lt hd
        · exact le_refl 0

theorem losses_nonneg (ps : List ℚ) : ∀ x ∈ losses ps, 0 ≤ x := by
  intro x hx
  cases ps with
  | nil => simp [losses] at hx
  | cons p rest =>
      simp only [losses, List.mem_cons] at hx
      rcases hx with rfl | hx
      · exact le_refl 0
      · rcases List.mem_map.1 hx with ⟨d, _, rfl⟩
        split_ifs with hd
        · linarith
        · exact le_refl 0

theorem pandasRsi_bounds (prices : List ℚ) (period i : ℕ) (x : ℚ)
    (hx : (pandasRsi prices period).get? i = some (some x)) : 0 ≤ x ∧ x ≤ 100 := by
  unfold pandasRsi at hx
  rcases (List.get?_zipWith_eq_some _ _ _ _ _).1 hx with ⟨go, lo, hgo, hlo, hval⟩
  cases go with
  | none => simp at hval
  | some g =>
      cases lo with
      | none => simp at hval
      | some l =>
          dsimp only at hval
          by_cases hl0 : l = 0
          · rw [if_pos hl0] at hval
            simp at hval
          · rw [if_neg hl0] at hval
            have hg : 0 ≤ g :=
              rollingMean_nonneg period (gains prices) (gains_nonneg prices) i g hgo
            have hlnn : 0 ≤ l :=
              rollingMean_nonneg period (losses prices) (losses_nonneg prices) i l hlo
            have hb := rsiFormula_bounds (g / l) (div_nonneg hg hlnn)
            obtain rfl : 100 - 100 / (1 + g / l) = x := Option.some_inj.1 hval
            exact hb

theorem wilderStep_nonneg (period : ℕ) (a v : ℚ) (ha : 0 ≤ a) (hv : 0 ≤ v) :
    0 ≤ (a * ((period : ℚ) - 1) + v) / period := by
  cases period with
  | zero => simp
  | succ n =>
      apply div_nonneg _ (by positivity)
      have h1 : ((n + 1 : ℕ) : ℚ) - 1 = (n : ℚ) := by push_cast; ring
      rw [h1]
      positivity

theorem rsiVal_bounds (up2 down2 : ℚ) (hup : 0 ≤ up2) (hdown : 0 ≤ down2) :
    0 ≤ 100 - 100 / (1 + if down2 ≠ 0 then up2 / down2 else 0) ∧
      100 - 100 / (1 + if down2 ≠ 0 then up2 / down2 else 0) ≤ 100 := by
  apply rsiFormula_bounds
  by_cases h : down2 ≠ 0
  · rw [if_pos h]
    exact div_nonneg hup hdown
  · rw [if_neg h]

theorem rsiLoop_bounds (period : ℕ) (ds : List ℚ) :
    ∀ up down : ℚ, 0 ≤ up → 0 ≤ down →
      ∀ x ∈ rsiLoop period up down ds, 0 ≤ x ∧ x ≤ 100 := by
  induction ds with
  | nil =>
      intro up down _ _ x hx
      simp [rsiLoop] at hx
  | cons d rest ih =>
      intro up down hup hdown x hx
      have hupval : 0 ≤ (if 0 < d then d else (0 : ℚ)) := by
        split_ifs with hd
        · exact le_of_lt hd
        · exact le_refl 0
      have hdownval : 0 ≤ (if 0 < d then (0 : ℚ) else -d) := by
        split_ifs with hd
        · exact le_refl 0
        · push_neg at hd; linarith
      have hup2 := wilderStep_nonneg period up _ hup hupval
      have hdown2 := wilderStep_nonneg period down _ hdown hdownval
      simp only [rsiLoop, List.mem_cons] at hx
      rcases hx with rfl | hx
      · exact rsiVal_bounds _ _ hup2 hdown2
      · exact ih _ _ hup2 hdown2 x hx

theorem filter_nonneg_sum (ds : List ℚ) : 0 ≤ (ds.filter fun d => 0 ≤ d).sum := by
  apply List.sum_nonneg
  intro x hx
  exact of_decide_eq_true (List.mem_filter.1 hx).2

theorem filter_neg_sum_nonpos (ds : List ℚ) : (ds.filter fun d => d < 0).sum ≤ 0 := by
  induction ds with
  | nil => simp
  | cons d rest ih =>
      by_cases hd : d < 0
      · rw [List.filter_cons_of_pos (by simpa using hd), List.sum_cons]
        linarith
      · rw [List.filter_cons_of_neg (by simpa using hd)]
        exact ih

/-- C9: wherever it is defined, the RSI lies in `[0, 100]` — for
`TechnicalIndicators.calculate_rsi` (whose cells are `none` unless the
average loss is positive) and for `AdvancedTechnicalAnalyzer.calculate_rsi`
(whose cells are always numeric: `50` on short history, a seed value and
Wilder-smoothed values otherwise, each of the form
`100 - 100 / (1 + rs)` with `rs ≥ 0`). -/
theorem c9_rsi_bounded :
    (∀ (prices : List ℚ) (period i : ℕ) (x : ℚ),
      (calculate_rsi prices period).get? i = some (some x) → 0 ≤ x ∧ x ≤ 100) ∧
    (∀ (prices : List ℚ) (period i : ℕ) (x : ℚ),
      (app_calculate_rsi prices period).get? i = some x → 0 ≤ x ∧ x ≤ 100) := by
  constructor
  · intro prices period i x hx
    unfold calculate_rsi at hx
    by_cases hlen : prices.length < period
    · rw [if_pos hlen] at hx
      have := replicate_get?_eq _ _ _ _ hx
      simp at this
    · rw [if_neg hlen] at hx
      exact pandasRsi_bounds prices period i x hx
  · intro prices period i x hx
    have hmem : x ∈ app_calculate_rsi prices period := List.get?_mem hx
    unfold app_calculate_rsi at hmem
    by_cases hlen : prices.length < period
    · rw [if_pos hlen] at hmem
      have := List.eq_of_mem_replicate hmem
      subst this
      norm_num
    · rw [if_neg hlen] at hmem
      simp only [List.mem_append] at hmem
      have hup0 : 0 ≤ ((diffs prices).take period |>.filter fun d => 0 ≤ d).sum /
          (period : ℚ) :=
        div_nonneg (filter_nonneg_sum _) (by positivity)
      have hdown0 : 0 ≤ -((diffs prices).take period |>.filter fun d => d < 0).sum /
          (period : ℚ) := by
        apply div_nonneg _ (by positivity)
        have := filter_neg_sum_nonpos ((diffs prices).take period)
        linarith
      rcases hmem with hmem | hmem
      · have := List.eq_of_mem_replicate hmem
        subst this
        exact rsiVal_bounds _ _ hup0 hdown0
      · exact rsiLoop_bounds period _ _ _ hup0 hdown0 x hmem

/-- Witness for `c9_rsi_bounded`: the pandas RSI of `[1, 2, 1]` with
period 2 is `50` at index 2, and the `app.py` RSI of the one-bar series
`[1]` is the short-history constant `50` at index 0. -/
theorem c9_rsi_bounded_witness :
    ((0 : ℚ) ≤ 50 ∧ (50 : ℚ) ≤ 100) ∧ ((0 : ℚ) ≤ 50 ∧ (50 : ℚ) ≤ 100) := by
  constructor
  · exact c9_rsi_bounded.1 [1, 2, 1] 2 2 50
      (by norm_num [calculate_rsi, pandasRsi, rollingMean, rollingApply, listMean,
        gains, losses, diffs, List.range_succ])
  · exact c9_rsi_bounded.2 [1] 14 0 50 (by norm_num [app_calculate_rsi])

/-- C10: on any frame with fewer than two rows,
`FastTechnicalAnalysis._generate_signals` stores the empty signal list
and `get_summary` returns the empty mapping (`none`: no last price, no
indicator values, no signals), while `calculate_all` still completes and
returns a table whose always-computed MACD column is aligned with the
input. -/
theorem c10_short_input (df : Df) (hlen : df.close.length < 2) :
    generateSignals (calculateAll df) = [] ∧
    getSummary (calculateAll df) (generateSignals (calculateAll df)) = none ∧
    (calculateAll df).macd.length = df.close.length := by
  have hclose : (calculateAll df).close = df.close := rfl
  refine ⟨?_, ?_, ?_⟩
  · unfold generateSignals
    rw [hclose, if_pos hlen]
  · unfold getSummary
    rw [hclose, if_pos hlen]
  · show (fastMacdLine df.close).length = df.close.length
    exact fastMacdLine_length df.close

/-- Witness for `c10_short_input` at the concrete one-bar frame. -/
theorem c10_short_input_witness :
    generateSignals (calculateAll c4Df) = [] ∧
    getSummary (calculateAll c4Df) (generateSignals (calculateAll c4Df)) = none ∧
    (calculateAll c4Df).macd.length = c4Df.close.length :=
  c10_short_input c4Df (by simp [c4Df])
